import Mathlib

/-
Shallow embedding of amrex's `AsyncArray` (Src/Base/AMReX_GpuAsyncArray.H).

The class owns at most one device-pool allocation (`d_data`) and at most one
pinned/host-pool allocation (`h_data`).  We model the two memory pools as
association lists from pointer identifiers to element contents, the command
stream as a queue of pending items executed in enqueue order, and we record
every pool / runtime call in an event trace so that claims about which calls
are made (and which are not) can be stated directly.

The external collaborators (the arenas, the stream primitives, the
`amrex_asyncarray_delete` release callback) are not part of the source core;
they are modelled from the spec's collaborator contracts and are marked so.
-/

namespace AMReX

/-- Pointer identifiers; a C++ null pointer is `Option.none` at use sites. -/
abbrev Ptr := Nat

/-- The compile-time device backends distinguished by the source's
conditional compilation: CUDA and HIP register a stream callback, SYCL with
the codeplay host-task extension submits a host task, and SYCL without it
falls back to a blocking stream synchronize. -/
inductive Backend where
  | cuda
  | hip
  | syclHostTask
  | syclFallback
  deriving DecidableEq, Repr

/-- Whether the backend has a non-blocking stream completion-callback (or
host-task) mechanism; `syclFallback` is the source's `xxxxx SYCL todo`
branch, which lacks one. -/
def Backend.hasCallback : Backend → Bool
  | .syclFallback => false
  | _ => true

/-- Build configuration: whether a GPU backend is compiled in
(`AMREX_USE_GPU`) and which one. `backend` is irrelevant when
`useGpu = false`. -/
structure Config where
  useGpu : Bool
  backend : Backend
  deriving DecidableEq, Repr

/-- One recorded call to a memory pool or to the device runtime.  Free calls
carry the pointer argument, which the source may pass as null. -/
inductive Event where
  | allocHost (nbytes : Nat)
  | allocDevice (nbytes : Nat)
  | freeHostCall (p : Option Ptr)
  | freeDeviceCall (p : Option Ptr)
  | memcpyCall
  | htodAsyncCall
  | dtohCall
  | packRecord (d : Ptr) (h : Option Ptr)
  | addCallbackCall (d : Ptr) (h : Option Ptr)
  | hostTaskCall (d : Ptr) (h : Option Ptr)
  | streamSyncCall
  deriving DecidableEq, Repr

/-- An item pending on the command stream: an asynchronous host-to-device
copy of `count` elements, externally enqueued opaque device work, or a
deferred-release record packaging the device pointer and the possibly-null
host pointer. -/
inductive StreamItem (T : Type) where
  | htodCopy (dst src : Ptr) (count : Nat)
  | extWork
  | freeRecord (d : Ptr) (h : Option Ptr)
  deriving DecidableEq, Repr

/-- The global state threaded through every operation: the two pools'
live allocations with their contents, the pending command stream, a fresh
pointer supply and the chronological event trace. -/
structure S (T : Type) where
  hostMem : List (Ptr × List T)
  devMem : List (Ptr × List T)
  stream : List (StreamItem T)
  nextPtr : Ptr
  events : List Event
  deriving DecidableEq, Repr

variable {T : Type}

/-- Look up the contents of a live allocation (first match). -/
def memLookup : List (Ptr × List T) → Ptr → Option (List T)
  | [], _ => none
  | (q, v) :: rest, p => if q = p then some v else memLookup rest p

/-- Overwrite the contents of the (first) allocation at `p`, if live. -/
def memWrite : List (Ptr × List T) → Ptr → List T → List (Ptr × List T)
  | [], _, _ => []
  | (q, w) :: rest, p, v => if q = p then (q, v) :: rest else (q, w) :: memWrite rest p v

/-- Remove the (first) allocation at `p`. -/
def memErase : List (Ptr × List T) → Ptr → List (Ptr × List T)
  | [], _ => []
  | (q, w) :: rest, p => if q = p then rest else (q, w) :: memErase rest p

/-- Append one event to the trace. -/
def emit (e : Event) (s : S T) : S T :=
  { s with events := s.events ++ [e] }

/-- Modelled from the spec: `The_Pinned_Arena()->alloc(n*sizeof(T))`, the
host/pinned pool's allocate entry point.  Returns a fresh pointer; the new
allocation holds `n` (uninitialized) elements. -/
def pinnedAlloc [Inhabited T] (sizeT n : Nat) (s : S T) : Ptr × S T :=
  (s.nextPtr,
   { s with
     hostMem := (s.nextPtr, List.replicate n (default : T)) :: s.hostMem
     nextPtr := s.nextPtr + 1
     events := s.events ++ [Event.allocHost (n * sizeT)] })

/-- Modelled from the spec: `The_Arena()->alloc(n*sizeof(T))`, the device
pool's allocate entry point. -/
def devAlloc [Inhabited T] (sizeT n : Nat) (s : S T) : Ptr × S T :=
  (s.nextPtr,
   { s with
     devMem := (s.nextPtr, List.replicate n (default : T)) :: s.devMem
     nextPtr := s.nextPtr + 1
     events := s.events ++ [Event.allocDevice (n * sizeT)] })

/-- Modelled from the spec: `The_Pinned_Arena()->free(p)`.  The call is
recorded even when the argument is null; a null argument releases nothing. -/
def pinnedFree (p : Option Ptr) (s : S T) : S T :=
  emit (Event.freeHostCall p)
    { s with hostMem := match p with
                        | some q => memErase s.hostMem q
                        | none => s.hostMem }

/-- Modelled from the spec: `The_Arena()->free(p)`. -/
def devFree (p : Option Ptr) (s : S T) : S T :=
  emit (Event.freeDeviceCall p)
    { s with devMem := match p with
                       | some q => memErase s.devMem q
                       | none => s.devMem }

/-- `std::memcpy(h_data, h_p, n*sizeof(T))`: synchronously copy the first
`n` elements of caller memory `src` into the live host allocation `p`. -/
def hostMemcpyIn (p : Ptr) (src : List T) (n : Nat) (s : S T) : S T :=
  emit Event.memcpyCall
    (match memLookup s.hostMem p with
     | some old => { s with hostMem := memWrite s.hostMem p (src.take n ++ old.drop n) }
     | none => s)

/-- Modelled from the spec: `Gpu::htod_memcpy_async` enqueues a
host-to-device copy on the current command stream and returns immediately;
it is not waited on. -/
def htodMemcpyAsync (dst src : Ptr) (n : Nat) (s : S T) : S T :=
  emit Event.htodAsyncCall
    { s with stream := s.stream ++ [StreamItem.htodCopy dst src n] }

/-- Execute one stream item against the pools.  A pending host-to-device
copy writes `count` elements from the host allocation into the device
allocation; external work touches no pool; a deferred-release record frees
the device allocation and the (possibly null) host allocation, as the
spec's release callback does. -/
def execItem (s : S T) : StreamItem T → S T
  | .htodCopy dst src count =>
    match memLookup s.hostMem src, memLookup s.devMem dst with
    | some hv, some dv =>
      { s with devMem := memWrite s.devMem dst (hv.take count ++ dv.drop count) }
    | _, _ => s
  | .extWork => s
  | .freeRecord d h =>
    { s with
      devMem := memErase s.devMem d
      hostMem := match h with
                 | some hp => memErase s.hostMem hp
                 | none => s.hostMem
      events := s.events ++ [Event.freeDeviceCall (some d), Event.freeHostCall h] }

/-- Execute a list of stream items in order. -/
def execItems (its : List (StreamItem T)) (s : S T) : S T :=
  its.foldl execItem s

/-- Drain the command stream: every pending item executes, in enqueue
order, and the stream becomes empty. -/
def drainStream (s : S T) : S T :=
  { execItems s.stream s with stream := [] }

/-- Modelled from the spec: `Gpu::streamSynchronize()` blocks until all
work enqueued on the stream completes. -/
def streamSynchronize (s : S T) : S T :=
  emit Event.streamSyncCall (drainStream s)

/-- Modelled from the spec: `Gpu::dtoh_memcpy` is synchronous for the
caller — it waits for prior enqueued work on the stream, then copies `n`
elements of the device allocation `src` into caller memory `dst`. -/
def dtohMemcpy (dst : List T) (src : Ptr) (n : Nat) (s : S T) : List T × S T :=
  let s' := emit Event.dtohCall (drainStream s)
  match memLookup s'.devMem src with
  | some dv => (dv.take n ++ dst.drop n, s')
  | none => (dst, s')

/-- The dual-pointer value object: `T* d_data = nullptr; T* h_data = nullptr;`. -/
structure AsyncArray (T : Type) where
  d_data : Option Ptr := none
  h_data : Option Ptr := none
  deriving DecidableEq, Repr

/-- `data()`: `(d_data != nullptr) ? d_data : h_data`. -/
def AsyncArray.data (a : AsyncArray T) : Option Ptr :=
  match a.d_data with
  | some d => some d
  | none => a.h_data

/-- `AsyncArray(T const* h_p, std::size_t n)`: for `n == 0` do nothing;
otherwise allocate from the pinned pool and memcpy the source in, and —
when a GPU backend is compiled in and `Gpu::inLaunchRegion()` holds —
additionally allocate from the device pool and enqueue an asynchronous
host-to-device copy.  `inLR` is the value of `Gpu::inLaunchRegion()` at
the call; `sizeT` is `sizeof(T)`. -/
def AsyncArray.mkFromHost [Inhabited T] (cfg : Config) (inLR : Bool) (sizeT : Nat)
    (h_p : List T) (n : Nat) (s : S T) : AsyncArray T × S T :=
  if n = 0 then (⟨none, none⟩, s)
  else
    let r := pinnedAlloc sizeT n s
    let hp := r.1
    let s := hostMemcpyIn hp h_p n r.2
    if cfg.useGpu && inLR then
      let r' := devAlloc sizeT n s
      let dp := r'.1
      let s := htodMemcpyAsync dp hp n r'.2
      (⟨some dp, some hp⟩, s)
    else
      (⟨none, some hp⟩, s)

/-- `explicit AsyncArray(std::size_t n)` (uninitialized variant): for
`n == 0` do nothing; in the launch region allocate only from the device
pool, otherwise only from the pinned pool. -/
def AsyncArray.mkUninit [Inhabited T] (cfg : Config) (inLR : Bool) (sizeT : Nat)
    (n : Nat) (s : S T) : AsyncArray T × S T :=
  if n = 0 then (⟨none, none⟩, s)
  else if cfg.useGpu && inLR then
    let r := devAlloc sizeT n s
    (⟨some r.1, none⟩, r.2)
  else
    let r := pinnedAlloc sizeT n s
    (⟨none, some r.1⟩, r.2)

/-- `clear()`: in the launch region with a device allocation present,
CUDA/HIP pack both pointers into a malloc'd record and register the
release callback on the stream; SYCL with host task submits the frees
as a host task; the SYCL fallback blocks on the stream and frees both
directly.  Outside the launch region (or without a GPU backend) the
pinned pool's free is called on `h_data` (which may be null).  Both
members are then set to null. -/
def AsyncArray.clear (cfg : Config) (inLR : Bool) (a : AsyncArray T) (s : S T) :
    AsyncArray T × S T :=
  let s :=
    if cfg.useGpu && inLR then
      match a.d_data with
      | some d =>
        match cfg.backend with
        | .cuda =>
          emit (Event.addCallbackCall d a.h_data)
            { emit (Event.packRecord d a.h_data) s with
              stream := s.stream ++ [StreamItem.freeRecord d a.h_data] }
        | .hip =>
          emit (Event.addCallbackCall d a.h_data)
            { emit (Event.packRecord d a.h_data) s with
              stream := s.stream ++ [StreamItem.freeRecord d a.h_data] }
        | .syclHostTask =>
          emit (Event.hostTaskCall d a.h_data)
            { s with stream := s.stream ++ [StreamItem.freeRecord d a.h_data] }
        | .syclFallback =>
          pinnedFree a.h_data (devFree (some d) (streamSynchronize s))
      | none => s
    else
      pinnedFree a.h_data s
  (⟨none, none⟩, s)

/-- `copyToHost(T* h_p, std::size_t n)`: for `n == 0` do nothing; with a
GPU backend and `d_data` non-null, a synchronous device-to-host copy;
otherwise, if `h_data` is non-null, a plain memcpy; otherwise nothing.
Returns the caller's destination memory after the call. -/
def AsyncArray.copyToHost (cfg : Config) (a : AsyncArray T) (h_p : List T)
    (n : Nat) (s : S T) : List T × S T :=
  if n = 0 then (h_p, s)
  else
    match (if cfg.useGpu then a.d_data else none) with
    | some d => dtohMemcpy h_p d n s
    | none =>
      match a.h_data with
      | some hp =>
        (match memLookup s.hostMem hp with
         | some hv => hv.take n ++ h_p.drop n
         | none => h_p,
         emit Event.memcpyCall s)
      | none => (h_p, s)

/-- Whether a stream item would free the device allocation `d`. -/
def StreamItem.freesDev (d : Ptr) : StreamItem T → Bool
  | .freeRecord d' _ => d' = d
  | _ => false

/-- The allocation-state invariant the spec states for a buffer holding
`n` elements: empty (with `n = 0`), host-only, device-only, or both. -/
def Inv (a : AsyncArray T) (n : Nat) : Prop :=
  (a.d_data = none ∧ a.h_data = none ∧ n = 0) ∨
  (a.d_data = none ∧ a.h_data.isSome = true) ∨
  (a.d_data.isSome = true ∧ a.h_data = none) ∨
  (a.d_data.isSome = true ∧ a.h_data.isSome = true)

/-- Dropping as many elements as were replicated leaves nothing. -/
theorem drop_self_replicate (n : Nat) (a : T) : (List.replicate n a).drop n = [] := by
  have h := List.drop_length (List.replicate n a)
  rwa [List.length_replicate] at h

/-- Overwriting the contents of one allocation changes no allocation's
liveness. -/
theorem isSome_memLookup_memWrite (m : List (Ptr × List T)) (p : Ptr) (v : List T) (d : Ptr) :
    (memLookup (memWrite m p v) d).isSome = (memLookup m d).isSome := by
  induction m with
  | nil => rfl
  | cons hd tl ih =>
    obtain ⟨q, w⟩ := hd
    by_cases hqp : q = p
    · subst hqp
      by_cases hqd : q = d <;> simp [memWrite, memLookup, hqd]
    · by_cases hqd : q = d
      · subst hqd
        simp [memWrite, memLookup, hqp, ih]
      · simp [memWrite, memLookup, hqp, hqd, ih]

/-- Erasing one allocation leaves every other allocation's lookup
untouched. -/
theorem memLookup_memErase_ne (m : List (Ptr × List T)) (p d : Ptr) (h : p ≠ d) :
    memLookup (memErase m p) d = memLookup m d := by
  induction m with
  | nil => rfl
  | cons hd tl ih =>
    obtain ⟨q, w⟩ := hd
    by_cases hqp : q = p
    · subst hqp
      simp [memErase, memLookup, h]
    · by_cases hqd : q = d
      · subst hqd
        simp [memErase, memLookup, hqp, ih]
      · simp [memErase, memLookup, hqp, hqd, ih]

/-- Executing a stream item that does not free the device allocation `d`
keeps `d` exactly as live as before. -/
theorem execItem_preserves_dev_live (s : S T) (it : StreamItem T) (d : Ptr)
    (hit : it.freesDev d = false) :
    (memLookup (execItem s it).devMem d).isSome = (memLookup s.devMem d).isSome := by
  cases it with
  | htodCopy dst src count =>
    cases hsrc : memLookup s.hostMem src <;> cases hdst : memLookup s.devMem dst <;>
      simp [execItem, hsrc, hdst, isSome_memLookup_memWrite]
  | extWork => rfl
  | freeRecord d' h =>
    have hne : d' ≠ d := by
      simpa [StreamItem.freesDev] using hit
    simp [execItem, memLookup_memErase_ne _ _ _ hne]

/-- Executing any run of stream items none of which frees `d` keeps `d`
exactly as live as before. -/
theorem execItems_preserve_dev_live (its : List (StreamItem T)) (s : S T) (d : Ptr)
    (hits : ∀ it ∈ its, it.freesDev d = false) :
    (memLookup (execItems its s).devMem d).isSome = (memLookup s.devMem d).isSome := by
  induction its generalizing s with
  | nil => rfl
  | cons it rest ih =>
    have h1 := execItem_preserves_dev_live s it d (hits it (by simp))
    have h2 := ih (execItem s it) (fun it' hm => hits it' (by simp [hm]))
    calc (memLookup (execItems (it :: rest) s).devMem d).isSome
        = (memLookup (execItems rest (execItem s it)).devMem d).isSome := by
          simp [execItems]
      _ = (memLookup (execItem s it).devMem d).isSome := h2
      _ = (memLookup s.devMem d).isSome := h1

/-- Executing stream items only appends to the event trace. -/
theorem execItems_events_extend (its : List (StreamItem T)) (s : S T) :
    ∃ evs, (execItems its s).events = s.events ++ evs := by
  induction its generalizing s with
  | nil => exact ⟨[], by simp [execItems]⟩
  | cons it rest ih =>
    obtain ⟨evs, hevs⟩ := ih (execItem s it)
    have hstep : ∃ e, (execItem s it).events = s.events ++ e := by
      cases it with
      | htodCopy dst src count =>
        cases hsrc : memLookup s.hostMem src <;> cases hdst : memLookup s.devMem dst <;>
          exact ⟨[], by simp [execItem, hsrc, hdst]⟩
      | extWork => exact ⟨[], by simp [execItem]⟩
      | freeRecord d' h =>
        exact ⟨[Event.freeDeviceCall (some d'), Event.freeHostCall h], by simp [execItem]⟩
    obtain ⟨e, he⟩ := hstep
    refine ⟨e ++ evs, ?_⟩
    have : execItems (it :: rest) s = execItems rest (execItem s it) := by simp [execItems]
    rw [this, hevs, he, List.append_assoc]

/-- C1: for every `n > 0` and source of `n` elements, constructing an
AsyncArray from the source and then calling copyToHost into a destination
of `n` elements yields the source back, in every configuration — with
asynchronous device execution active (device path) and without it
(host-only path). -/
theorem mkFromHost_copyToHost_roundtrip [Inhabited T] (cfg : Config) (inLR : Bool)
    (sizeT : Nat) (src dst : List T) (s : S T)
    (hn : 0 < src.length) (hd : dst.length = src.length) (hs : s.stream = []) :
    (AsyncArray.copyToHost cfg
      (AsyncArray.mkFromHost cfg inLR sizeT src src.length s).1 dst src.length
      (AsyncArray.mkFromHost cfg inLR sizeT src src.length s).2).1 = src := by
  have hn0 : src.length ≠ 0 := Nat.pos_iff_ne_zero.mp hn
  have hdst : dst.drop src.length = [] := by
    rw [← hd]; exact List.drop_length dst
  cases hgb : (cfg.useGpu && inLR) with
  | false =>
    simp [AsyncArray.mkFromHost, AsyncArray.copyToHost, hn0, hgb, pinnedAlloc,
      hostMemcpyIn, memLookup, memWrite, emit, List.take_length,
      drop_self_replicate, hdst]
  | true =>
    obtain ⟨hg, hl⟩ := Bool.and_eq_true _ _ |>.mp hgb
    simp [AsyncArray.mkFromHost, AsyncArray.copyToHost, hn0, hgb, hg, hl, pinnedAlloc,
      devAlloc, hostMemcpyIn, htodMemcpyAsync, memLookup, memWrite, emit,
      dtohMemcpy, drainStream, execItems, execItem, hs, List.take_length,
      drop_self_replicate, hdst]

/-- Witness for C1 at a concrete input: the device path round trip on the
source `[5, 7, 9]`. -/
theorem mkFromHost_copyToHost_roundtrip_witness :
    (AsyncArray.copyToHost ⟨true, Backend.cuda⟩
      (AsyncArray.mkFromHost ⟨true, Backend.cuda⟩ true 8 [5, 7, 9]
        ([5, 7, 9] : List Nat).length ⟨[], [], [], 0, []⟩).1
      [0, 0, 0] ([5, 7, 9] : List Nat).length
      (AsyncArray.mkFromHost ⟨true, Backend.cuda⟩ true 8 [5, 7, 9]
        ([5, 7, 9] : List Nat).length ⟨[], [], [], 0, []⟩).2).1 = [5, 7, 9] :=
  mkFromHost_copyToHost_roundtrip ⟨true, Backend.cuda⟩ true 8 [5, 7, 9] [0, 0, 0]
    ⟨[], [], [], 0, []⟩ (by decide) (by decide) rfl

/-- C2: in asynchronous mode with a device allocation present, clear() on a
callback-capable backend registers the deferred-release record at the end
of the stream without blocking (no stream synchronize) and without freeing
either allocation, and the device allocation stays live through the
execution of every previously enqueued stream item; on the backend lacking
the callback mechanism, clear() drains the stream (blocking) and then frees
both allocations directly. -/
theorem clear_async_defers_device_free (cfg : Config) (a : AsyncArray T) (s : S T) (d : Ptr)
    (hg : cfg.useGpu = true) (hd : a.d_data = some d)
    (hprior : ∀ it ∈ s.stream, it.freesDev d = false) :
    (cfg.backend.hasCallback = true →
      (a.clear cfg true s).2.stream = s.stream ++ [StreamItem.freeRecord d a.h_data] ∧
      (a.clear cfg true s).2.devMem = s.devMem ∧
      (a.clear cfg true s).2.hostMem = s.hostMem ∧
      (∃ evs, (a.clear cfg true s).2.events = s.events ++ evs ∧
        Event.streamSyncCall ∉ evs) ∧
      (∀ k, k ≤ s.stream.length →
        (memLookup (execItems ((a.clear cfg true s).2.stream.take k)
            (a.clear cfg true s).2).devMem d).isSome
          = (memLookup s.devMem d).isSome)) ∧
    (cfg.backend.hasCallback = false →
      (a.clear cfg true s).2.stream = [] ∧
      ∃ evs, (a.clear cfg true s).2.events
        = s.events ++ evs ++ [Event.streamSyncCall, Event.freeDeviceCall (some d),
                              Event.freeHostCall a.h_data]) := by
  obtain ⟨gu, bk⟩ := cfg
  simp only [Config.useGpu] at hg
  subst hg
  have hcommon : ∀ (b : Backend) (evtail : List Event),
      (AsyncArray.clear ⟨true, b⟩ true a s).2
        = { s with stream := s.stream ++ [StreamItem.freeRecord d a.h_data],
                   events := s.events ++ evtail } →
      Event.streamSyncCall ∉ evtail →
      ((AsyncArray.clear ⟨true, b⟩ true a s).2.stream
          = s.stream ++ [StreamItem.freeRecord d a.h_data] ∧
       (AsyncArray.clear ⟨true, b⟩ true a s).2.devMem = s.devMem ∧
       (AsyncArray.clear ⟨true, b⟩ true a s).2.hostMem = s.hostMem ∧
       (∃ evs, (AsyncArray.clear ⟨true, b⟩ true a s).2.events = s.events ++ evs ∧
         Event.streamSyncCall ∉ evs) ∧
       (∀ k, k ≤ s.stream.length →
         (memLookup (execItems ((AsyncArray.clear ⟨true, b⟩ true a s).2.stream.take k)
             ((AsyncArray.clear ⟨true, b⟩ true a s).2)).devMem d).isSome
           = (memLookup s.devMem d).isSome)) := by
    intro b evtail hclear hnot
    rw [hclear]
    refine ⟨rfl, rfl, rfl, ⟨evtail, rfl, hnot⟩, ?_⟩
    intro k hk
    have hsub : ∀ it ∈ s.stream.take k, StreamItem.freesDev d it = false :=
      fun it hm => hprior it (List.take_subset k s.stream hm)
    simp only [List.take_append_of_le_length hk]
    rw [execItems_preserve_dev_live _ _ _ hsub]
  cases bk with
  | cuda =>
    refine ⟨fun _ => ?_, fun hcb => by simp [Backend.hasCallback] at hcb⟩
    exact hcommon Backend.cuda
      [Event.packRecord d a.h_data, Event.addCallbackCall d a.h_data]
      (by simp [AsyncArray.clear, hd, emit]) (by simp)
  | hip =>
    refine ⟨fun _ => ?_, fun hcb => by simp [Backend.hasCallback] at hcb⟩
    exact hcommon Backend.hip
      [Event.packRecord d a.h_data, Event.addCallbackCall d a.h_data]
      (by simp [AsyncArray.clear, hd, emit]) (by simp)
  | syclHostTask =>
    refine ⟨fun _ => ?_, fun hcb => by simp [Backend.hasCallback] at hcb⟩
    exact hcommon Backend.syclHostTask
      [Event.hostTaskCall d a.h_data]
      (by simp [AsyncArray.clear, hd, emit]) (by simp)
  | syclFallback =>
    refine ⟨fun hcb => by simp [Backend.hasCallback] at hcb, fun _ => ?_⟩
    obtain ⟨evs0, hevs0⟩ := execItems_events_extend s.stream s
    constructor
    · simp [AsyncArray.clear, hd, pinnedFree, devFree, streamSynchronize, drainStream, emit]
    · refine ⟨evs0, ?_⟩
      simp [AsyncArray.clear, hd, pinnedFree, devFree, streamSynchronize, drainStream,
        emit, hevs0]

/-- Witness for C2 at a concrete input: clearing a buffer on the CUDA
backend with one unit of work pending appends the release record after
that work. -/
theorem clear_async_defers_device_free_witness :
    ((⟨some 1, some 0⟩ : AsyncArray Nat).clear ⟨true, Backend.cuda⟩ true
        ⟨[(0, [4])], [(1, [4])], [StreamItem.extWork], 2, []⟩).2.stream
      = [StreamItem.extWork] ++ [StreamItem.freeRecord 1 (some 0)] :=
  ((clear_async_defers_device_free ⟨true, Backend.cuda⟩ ⟨some 1, some 0⟩
      ⟨[(0, [4])], [(1, [4])], [StreamItem.extWork], 2, []⟩ 1 rfl rfl (by decide)).1 rfl).1

/-- C3: the launch-region query is re-evaluated at release time, so a
buffer constructed from a host source in asynchronous mode but cleared in
synchronous mode frees only the host allocation and leaks the (still-live)
device allocation; dually, a buffer constructed in synchronous mode but
cleared in asynchronous mode releases nothing and leaks the host
allocation. -/
theorem clear_mode_flip_leaks [Inhabited T] (cfg : Config) (sizeT n : Nat)
    (src : List T) (s : S T) (hg : cfg.useGpu = true) (hn : 0 < n) :
    ((AsyncArray.mkFromHost cfg true sizeT src n s).1
        = ⟨some (s.nextPtr + 1), some s.nextPtr⟩ ∧
     (AsyncArray.clear cfg false (AsyncArray.mkFromHost cfg true sizeT src n s).1
         (AsyncArray.mkFromHost cfg true sizeT src n s).2).2.events
       = (AsyncArray.mkFromHost cfg true sizeT src n s).2.events
           ++ [Event.freeHostCall (some s.nextPtr)] ∧
     (AsyncArray.clear cfg false (AsyncArray.mkFromHost cfg true sizeT src n s).1
         (AsyncArray.mkFromHost cfg true sizeT src n s).2).2.devMem
       = (AsyncArray.mkFromHost cfg true sizeT src n s).2.devMem ∧
     (memLookup (AsyncArray.clear cfg false (AsyncArray.mkFromHost cfg true sizeT src n s).1
         (AsyncArray.mkFromHost cfg true sizeT src n s).2).2.devMem (s.nextPtr + 1)).isSome
       = true ∧
     (AsyncArray.clear cfg false (AsyncArray.mkFromHost cfg true sizeT src n s).1
         (AsyncArray.mkFromHost cfg true sizeT src n s).2).2.stream
       = (AsyncArray.mkFromHost cfg true sizeT src n s).2.stream) ∧
    ((AsyncArray.mkUninit cfg false sizeT n s).1 = ⟨none, some s.nextPtr⟩ ∧
     (AsyncArray.clear cfg true (AsyncArray.mkUninit cfg false sizeT n s).1
         (AsyncArray.mkUninit cfg false sizeT n s).2).2
       = (AsyncArray.mkUninit cfg false sizeT n s).2 ∧
     (memLookup (AsyncArray.mkUninit cfg false sizeT n s).2.hostMem s.nextPtr).isSome
       = true) := by
  have hn0 : n ≠ 0 := Nat.pos_iff_ne_zero.mp hn
  refine ⟨⟨?_, ?_, ?_, ?_, ?_⟩, ⟨?_, ?_, ?_⟩⟩ <;>
    simp [AsyncArray.mkFromHost, AsyncArray.mkUninit, AsyncArray.clear, hn0, hg,
      pinnedAlloc, devAlloc, hostMemcpyIn, htodMemcpyAsync, pinnedFree, emit,
      memLookup, memWrite]

/-- Witness for C3 at a concrete input: after constructing from `[2, 3]`
in asynchronous mode and clearing in synchronous mode, the device
allocation is still live (leaked). -/
theorem clear_mode_flip_leaks_witness :
    (memLookup (AsyncArray.clear ⟨true, Backend.cuda⟩ false
        (AsyncArray.mkFromHost ⟨true, Backend.cuda⟩ true 4 [2, 3] 2
          (⟨[], [], [], 0, []⟩ : S Nat)).1
        (AsyncArray.mkFromHost ⟨true, Backend.cuda⟩ true 4 [2, 3] 2
          (⟨[], [], [], 0, []⟩ : S Nat)).2).2.devMem
      ((⟨[], [], [], 0, []⟩ : S Nat).nextPtr + 1)).isSome = true :=
  ((clear_mode_flip_leaks ⟨true, Backend.cuda⟩ 4 2 [2, 3] ⟨[], [], [], 0, []⟩
      rfl (by decide)).1).2.2.2.1

/-- C4 counterexample: clear() on the empty buffer outside the launch
region does make a free call to the host pool — with a null argument —
so the claim that no allocate or free call is made does not hold as
stated. -/
theorem clear_empty_sync_frees_null :
    ((⟨none, none⟩ : AsyncArray Nat).clear ⟨false, Backend.cuda⟩ false
        ⟨[], [], [], 0, []⟩).2.events = [Event.freeHostCall none] ∧
    ((⟨none, none⟩ : AsyncArray Nat).clear ⟨false, Backend.cuda⟩ false
        ⟨[], [], [], 0, []⟩).2.events ≠ [] := by
  constructor <;> decide

/-- C4 (amended): for `n = 0` both constructors return an empty buffer and
leave the state untouched, data() is null, copyToHost with count 0 is a
no-op, and clear() on the empty buffer allocates nothing and frees no
allocation — in the asynchronous path it makes no pool call at all, while
otherwise it issues exactly one host-pool free call with a null pointer,
which changes neither pool. -/
theorem n_zero_noop [Inhabited T] (cfg : Config) (inLR : Bool) (sizeT : Nat)
    (src dst : List T) (s : S T) :
    AsyncArray.mkFromHost cfg inLR sizeT src 0 s = (⟨none, none⟩, s) ∧
    AsyncArray.mkUninit cfg inLR sizeT 0 s = (⟨none, none⟩, s) ∧
    (⟨none, none⟩ : AsyncArray T).data = none ∧
    AsyncArray.copyToHost cfg ⟨none, none⟩ dst 0 s = (dst, s) ∧
    ((cfg.useGpu && inLR) = true →
      (⟨none, none⟩ : AsyncArray T).clear cfg inLR s = (⟨none, none⟩, s)) ∧
    ((cfg.useGpu && inLR) = false →
      (⟨none, none⟩ : AsyncArray T).clear cfg inLR s
        = (⟨none, none⟩, { s with events := s.events ++ [Event.freeHostCall none] })) := by
  refine ⟨?_, ?_, rfl, ?_, ?_, ?_⟩
  · simp [AsyncArray.mkFromHost]
  · simp [AsyncArray.mkUninit]
  · simp [AsyncArray.copyToHost]
  · intro hb
    simp [AsyncArray.clear, hb]
  · intro hb
    simp [AsyncArray.clear, hb, pinnedFree, emit]

/-- Witness for C4 (amended) at concrete inputs: the `n = 0` constructor
is the identity on the state, and the synchronous-path clear of an empty
buffer only appends the null free call. -/
theorem n_zero_noop_witness :
    AsyncArray.mkFromHost (⟨false, Backend.cuda⟩ : Config) false 4 ([] : List Nat) 0
        ⟨[], [], [], 0, []⟩ = (⟨none, none⟩, ⟨[], [], [], 0, []⟩) ∧
    (⟨none, none⟩ : AsyncArray Nat).clear ⟨false, Backend.cuda⟩ false ⟨[], [], [], 0, []⟩
        = (⟨none, none⟩, ⟨[], [], [], 0, [Event.freeHostCall none]⟩) :=
  ⟨(n_zero_noop ⟨false, Backend.cuda⟩ false 4 [] [] ⟨[], [], [], 0, []⟩).1,
   (n_zero_noop ⟨false, Backend.cuda⟩ false 4 ([] : List Nat) []
      ⟨[], [], [], 0, []⟩).2.2.2.2.2 rfl⟩

/-- C5: the uninitialized constructor with `n > 0` makes exactly one
allocation call of `n * sizeof(T)` bytes — from the device pool and none
from the host pool when asynchronous execution is active, and from the
host pool and none from the device pool otherwise. -/
theorem mkUninit_single_pool [Inhabited T] (cfg : Config) (inLR : Bool) (sizeT n : Nat)
    (s : S T) (hn : 0 < n) :
    ((cfg.useGpu && inLR) = true →
      (AsyncArray.mkUninit cfg inLR sizeT n s).2.events
          = s.events ++ [Event.allocDevice (n * sizeT)] ∧
      (AsyncArray.mkUninit cfg inLR sizeT n s).2.hostMem = s.hostMem ∧
      (AsyncArray.mkUninit cfg inLR sizeT n s).2.devMem
          = (s.nextPtr, List.replicate n default) :: s.devMem ∧
      (AsyncArray.mkUninit cfg inLR sizeT n s).1 = ⟨some s.nextPtr, none⟩) ∧
    ((cfg.useGpu && inLR) = false →
      (AsyncArray.mkUninit cfg inLR sizeT n s).2.events
          = s.events ++ [Event.allocHost (n * sizeT)] ∧
      (AsyncArray.mkUninit cfg inLR sizeT n s).2.devMem = s.devMem ∧
      (AsyncArray.mkUninit cfg inLR sizeT n s).2.hostMem
          = (s.nextPtr, List.replicate n default) :: s.hostMem ∧
      (AsyncArray.mkUninit cfg inLR sizeT n s).1 = ⟨none, some s.nextPtr⟩) := by
  have hn0 : n ≠ 0 := Nat.pos_iff_ne_zero.mp hn
  constructor <;> intro hb <;>
    simp [AsyncArray.mkUninit, hn0, hb, devAlloc, pinnedAlloc]

/-- Witness for C5 at a concrete input: uninitialized construction of 100
elements of size 4 in synchronous mode makes one host-pool allocation of
400 bytes. -/
theorem mkUninit_single_pool_witness :
    (AsyncArray.mkUninit (⟨false, Backend.cuda⟩ : Config) false 4 100
        (⟨[], [], [], 0, []⟩ : S Nat)).2.events
      = ([] : List Event) ++ [Event.allocHost (100 * 4)] :=
  ((mkUninit_single_pool ⟨false, Backend.cuda⟩ false 4 100 ⟨[], [], [], 0, []⟩
      (by decide)).2 rfl).1

/-- C6: the from-host-source constructor with `n > 0` always allocates
`n * sizeof(T)` bytes from the host pool and synchronously copies the
source in; in asynchronous mode it additionally allocates `n * sizeof(T)`
bytes from the device pool and enqueues a host-to-device copy on the
stream without waiting (the copy stays pending and no stream synchronize
is issued), leaving both pointers set; otherwise only the host pointer
is set. -/
theorem mkFromHost_alloc_behavior [Inhabited T] (cfg : Config) (inLR : Bool) (sizeT n : Nat)
    (src : List T) (s : S T) (hn : 0 < n) (hlen : src.length = n) :
    ((cfg.useGpu && inLR) = false →
      (AsyncArray.mkFromHost cfg inLR sizeT src n s).2.events
          = s.events ++ [Event.allocHost (n * sizeT), Event.memcpyCall] ∧
      (AsyncArray.mkFromHost cfg inLR sizeT src n s).2.hostMem
          = (s.nextPtr, src) :: s.hostMem ∧
      (AsyncArray.mkFromHost cfg inLR sizeT src n s).2.devMem = s.devMem ∧
      (AsyncArray.mkFromHost cfg inLR sizeT src n s).2.stream = s.stream ∧
      (AsyncArray.mkFromHost cfg inLR sizeT src n s).1 = ⟨none, some s.nextPtr⟩) ∧
    ((cfg.useGpu && inLR) = true →
      (AsyncArray.mkFromHost cfg inLR sizeT src n s).2.events
          = s.events ++ [Event.allocHost (n * sizeT), Event.memcpyCall,
                         Event.allocDevice (n * sizeT), Event.htodAsyncCall] ∧
      (AsyncArray.mkFromHost cfg inLR sizeT src n s).2.hostMem
          = (s.nextPtr, src) :: s.hostMem ∧
      (AsyncArray.mkFromHost cfg inLR sizeT src n s).2.devMem
          = (s.nextPtr + 1, List.replicate n default) :: s.devMem ∧
      (AsyncArray.mkFromHost cfg inLR sizeT src n s).2.stream
          = s.stream ++ [StreamItem.htodCopy (s.nextPtr + 1) s.nextPtr n] ∧
      (AsyncArray.mkFromHost cfg inLR sizeT src n s).1
          = ⟨some (s.nextPtr + 1), some s.nextPtr⟩) := by
  have hn0 : n ≠ 0 := Nat.pos_iff_ne_zero.mp hn
  have htake : src.take n = src := by
    rw [← hlen]; exact List.take_length src
  have hdrop : (List.replicate n (default : T)).drop n = [] := drop_self_replicate n _
  constructor <;> intro hb <;>
    simp [AsyncArray.mkFromHost, hn0, hb, pinnedAlloc, devAlloc, hostMemcpyIn,
      htodMemcpyAsync, emit, memLookup, memWrite, htake, hdrop]

/-- Witness for C6 at a concrete input: constructing from `[1, 2]` in
asynchronous mode leaves the host-to-device copy pending on the stream. -/
theorem mkFromHost_alloc_behavior_witness :
    (AsyncArray.mkFromHost (⟨true, Backend.hip⟩ : Config) true 4 [1, 2] 2
        (⟨[], [], [], 0, []⟩ : S Nat)).2.stream
      = ([] : List (StreamItem Nat)) ++ [StreamItem.htodCopy (0 + 1) 0 2] :=
  ((mkFromHost_alloc_behavior ⟨true, Backend.hip⟩ true 4 2 [1, 2] ⟨[], [], [], 0, []⟩
      (by decide) rfl).2 rfl).2.2.2.1

/-- C7: data() returns the device pointer when present and the host
pointer otherwise (null when neither is set), and copyToHost reads through
the device path when the device pointer is present and only otherwise
through the host path; the hypothesis records that in a build without a
GPU backend the device pointer is never set. -/
theorem data_copy_prefer_device (cfg : Config) (a : AsyncArray T) (dst : List T)
    (n : Nat) (s : S T) (hreach : cfg.useGpu = false → a.d_data = none) (hn : 0 < n) :
    (∀ d, a.d_data = some d → a.data = some d) ∧
    (a.d_data = none → a.data = a.h_data) ∧
    (a.d_data = none → a.h_data = none → a.data = none) ∧
    (∀ d, a.d_data = some d →
      AsyncArray.copyToHost cfg a dst n s = dtohMemcpy dst d n s) ∧
    (a.d_data = none → ∀ hp, a.h_data = some hp →
      AsyncArray.copyToHost cfg a dst n s
        = (match memLookup s.hostMem hp with
           | some hv => hv.take n ++ dst.drop n
           | none => dst,
           emit Event.memcpyCall s)) := by
  have hn0 : n ≠ 0 := Nat.pos_iff_ne_zero.mp hn
  refine ⟨?_, ?_, ?_, ?_, ?_⟩
  · intro d hd
    simp [AsyncArray.data, hd]
  · intro hd
    simp [AsyncArray.data, hd]
  · intro hd hh
    simp [AsyncArray.data, hd, hh]
  · intro d hd
    cases hg : cfg.useGpu with
    | false => exact absurd (hreach hg) (by simp [hd])
    | true => simp [AsyncArray.copyToHost, hn0, hg, hd]
  · intro hd hp hh
    cases hg : cfg.useGpu with
    | false => simp [AsyncArray.copyToHost, hn0, hg, hd, hh]
    | true => simp [AsyncArray.copyToHost, hn0, hg, hd, hh]

/-- Witness for C7 at a concrete input: with both pointers set, data()
returns the device pointer. -/
theorem data_copy_prefer_device_witness :
    (⟨some 1, some 0⟩ : AsyncArray Nat).data = some 1 :=
  (data_copy_prefer_device ⟨true, Backend.cuda⟩ ⟨some 1, some 0⟩ [0] 1
      ⟨[], [], [], 0, []⟩ (by decide) (by decide)).1 1 rfl

/-- C8: clear() always returns a buffer with both pointers null (so data()
probes null), regardless of whether the deferred-release callback has
fired, and clear() of a both-null buffer — in particular a second clear()
— leaves both pools and the stream untouched: it releases nothing and
cannot double-free (at most it emits the null host-pool free call). -/
theorem clear_nulls_and_empty_clear_releases_nothing (cfg cfg' : Config)
    (inLR inLR' : Bool) (a : AsyncArray T) (s s' : S T) :
    (a.clear cfg inLR s).1 = ⟨none, none⟩ ∧
    ((a.clear cfg inLR s).1).data = none ∧
    (((a.clear cfg inLR s).1).clear cfg' inLR' s').2.hostMem = s'.hostMem ∧
    (((a.clear cfg inLR s).1).clear cfg' inLR' s').2.devMem = s'.devMem ∧
    (((a.clear cfg inLR s).1).clear cfg' inLR' s').2.stream = s'.stream ∧
    ((((a.clear cfg inLR s).1).clear cfg' inLR' s').2.events = s'.events ∨
     (((a.clear cfg inLR s).1).clear cfg' inLR' s').2.events
        = s'.events ++ [Event.freeHostCall none]) := by
  have h1 : (a.clear cfg inLR s).1 = ⟨none, none⟩ := by
    simp [AsyncArray.clear]
  rw [h1]
  cases hb : (cfg'.useGpu && inLR') with
  | true => simp [AsyncArray.clear, AsyncArray.data, hb]
  | false => simp [AsyncArray.clear, AsyncArray.data, hb, pinnedFree, emit]

/-- C9: every constructor result satisfies the allocation-state invariant
(empty with count 0, host-only, device-only, or both set), the cleared
buffer is the empty state, and a constructor with `n > 0` never yields a
buffer with both pointers null. -/
theorem constructors_clear_satisfy_inv [Inhabited T] (cfg : Config) (inLR : Bool)
    (sizeT n : Nat) (src : List T) (a : AsyncArray T) (s : S T) :
    Inv (AsyncArray.mkFromHost cfg inLR sizeT src n s).1 n ∧
    Inv (AsyncArray.mkUninit cfg inLR sizeT n s).1 n ∧
    Inv ((a.clear cfg inLR s).1) 0 ∧
    (0 < n → (AsyncArray.mkFromHost cfg inLR sizeT src n s).1.data ≠ none) ∧
    (0 < n → (AsyncArray.mkUninit cfg inLR sizeT n s).1.data ≠ none) := by
  by_cases hn0 : n = 0
  · subst hn0
    refine ⟨Or.inl ?_, Or.inl ?_, Or.inl ?_, ?_, ?_⟩ <;>
      simp [AsyncArray.mkFromHost, AsyncArray.mkUninit, AsyncArray.clear]
  · cases hb : (cfg.useGpu && inLR) with
    | true =>
      refine ⟨Or.inr (Or.inr (Or.inr ?_)), Or.inr (Or.inr (Or.inl ?_)), Or.inl ?_, ?_, ?_⟩ <;>
        simp [AsyncArray.mkFromHost, AsyncArray.mkUninit, AsyncArray.clear,
          AsyncArray.data, hn0, hb]
    | false =>
      refine ⟨Or.inr (Or.inl ?_), Or.inr (Or.inl ?_), Or.inl ?_, ?_, ?_⟩ <;>
        simp [AsyncArray.mkFromHost, AsyncArray.mkUninit, AsyncArray.clear,
          AsyncArray.data, hn0, hb]

/-- Witness for C9 at a concrete input: the uninitialized constructor with
`n = 3` in asynchronous mode yields a non-null data() pointer. -/
theorem constructors_clear_satisfy_inv_witness :
    (AsyncArray.mkUninit (⟨true, Backend.cuda⟩ : Config) true 4 3
        (⟨[], [], [], 0, []⟩ : S Nat)).1.data ≠ none :=
  (constructors_clear_satisfy_inv ⟨true, Backend.cuda⟩ true 4 3 [9, 9, 9]
      ⟨some 0, none⟩ ⟨[], [], [], 0, []⟩).2.2.2.2 (by decide)

/-- C10: copyToHost on a buffer whose pointers are both null is a no-op
for every count, including counts exceeding the (empty) contents: the
destination and the state are returned unchanged and no memory is
dereferenced. -/
theorem copyToHost_both_null_noop (cfg : Config) (a : AsyncArray T) (dst : List T)
    (n : Nat) (s : S T) (hd : a.d_data = none) (hh : a.h_data = none) :
    AsyncArray.copyToHost cfg a dst n s = (dst, s) := by
  by_cases hn : n = 0 <;> simp [AsyncArray.copyToHost, hn, hd, hh]

/-- Witness for C10 at a concrete input: copying 2 elements out of an
empty buffer returns the destination unchanged. -/
theorem copyToHost_both_null_noop_witness :
    AsyncArray.copyToHost (⟨true, Backend.cuda⟩ : Config) ⟨none, none⟩ [7, 7] 2
        (⟨[], [], [], 0, []⟩ : S Nat)
      = ([7, 7], ⟨[], [], [], 0, []⟩) :=
  copyToHost_both_null_noop ⟨true, Backend.cuda⟩ ⟨none, none⟩ [7, 7] 2
    ⟨[], [], [], 0, []⟩ rfl rfl

end AMReX
